import Mathlib

/-!
Shallow embedding of the token-mill-v2-sdk swap-math engine
(src/quote/math.rs and src/quote/swap_math.rs).

Machine integers are modelled as `Nat` with explicit `% 2^w` at the
points where the Rust code can wrap (`wrapping_mul` on U512, plain `*`
on U256/u128, `as`-casts), and with explicit checks at the points where
the Rust code checks (`checked_*`, `try_from`).  Fallible Rust code
returning `anyhow::Result` is modelled as `Except Err`; the `?`
operator is the `rbind` combinator below.  A Rust panic (reachable only
through `div_ceil` with a zero divisor; the unchecked `u128`
subtraction in the exact-out fee computation is modelled with
release-profile wrapping) is modelled by the distinguished outcome
`Err.Panic`, which no code catches.
-/

namespace TokenMill

/-- Width bounds of the fixed-width integer types used by the source. -/
def U64SIZE : Nat := 2 ^ 64

def U128SIZE : Nat := 2 ^ 128

def U256SIZE : Nat := 2 ^ 256

def U512SIZE : Nat := 2 ^ 512

/-- Largest `u128` value, `u128::MAX`. -/
def U128MAX : Nat := U128SIZE - 1

/-- Error kinds of `TokenMillV2Error` used by the swap-math engine,
plus `Panic` for a Rust panic (an unwinding outcome no caller catches). -/
inductive Err where
  | DivisionByZero
  | AmountOverflow
  | AmountUnderflow
  | AmountInOverflow
  | AmountOutOverflow
  | FeeAmountOverflow
  | PriceOverflow
  | Panic
deriving DecidableEq

deriving instance DecidableEq for Except

/-- Result type of the fallible Rust functions (`anyhow::Result`). -/
abbrev Res (α : Type) := Except Err α

/-- Model of Rust's `?` operator: propagate an error, continue on `Ok`. -/
def rbind {α β : Type} (r : Res α) (f : α → Res β) : Res β :=
  match r with
  | .error e => .error e
  | .ok a => f a

@[simp]
theorem rbind_ok {α β : Type} (a : α) (f : α → Res β) :
    rbind (.ok a) f = f a := rfl

@[simp]
theorem rbind_error {α β : Type} (e : Err) (f : α → Res β) :
    rbind (.error e) f = .error e := rfl

/-- Inversion of a successful `rbind`. -/
theorem rbind_eq_ok {α β : Type} {r : Res α} {f : α → Res β} {b : β}
    (h : rbind r f = .ok b) : ∃ a, r = .ok a ∧ f a = .ok b := by
  cases r with
  | error e => cases h
  | ok a => exact ⟨a, rfl, h⟩

/-- The fee denominator, `MAX_FEE_U128 = 1_000_000` (parts per million). -/
def MAX_FEE_U128 : Nat := 1000000

/-- The fixed binary scale of square-root prices, `SQRT_PRICE_SHIFT = 96`. -/
def SQRT_PRICE_SHIFT : Nat := 96

/-- Model of `a.checked_sub(b).ok_or(e)` on unsigned integers. -/
def checkedSub (a b : Nat) (e : Err) : Res Nat :=
  if b ≤ a then .ok (a - b) else .error e

/-- Model of `a.checked_mul(b).ok_or(e)` on `u128`. -/
def checkedMulU128 (a b : Nat) (e : Err) : Res Nat :=
  if a * b < U128SIZE then .ok (a * b) else .error e

/-- Model of `a.checked_add(b).ok_or(e)` on `U256`. -/
def checkedAddU256 (a b : Nat) (e : Err) : Res Nat :=
  if a + b < U256SIZE then .ok (a + b) else .error e

/-- Model of `a.checked_div(b).ok_or(DivisionByZero)` (both uses in the
source map the `None` case to `DivisionByZero`). -/
def checkedDiv (a b : Nat) : Res Nat :=
  if b = 0 then .error .DivisionByZero else .ok (a / b)

/-- Model of Rust `a.div_ceil(b)`: panics when the divisor is zero
(in every compilation profile), otherwise exact ceiling division. -/
def divCeilPanic (a b : Nat) : Res Nat :=
  if b = 0 then .error .Panic else .ok ((a + b - 1) / b)

/-- Exact ceiling division on naturals, `⌈a / b⌉` for `b ≠ 0`. -/
def ceilDivNat (a b : Nat) : Nat := (a + b - 1) / b

/-- Model of `U256::saturating_shl(96)`: saturates to `U256::MAX` when
bits would be shifted out. -/
def satShl96 (x : Nat) : Nat :=
  if x * 2 ^ SQRT_PRICE_SHIFT < U256SIZE then x * 2 ^ SQRT_PRICE_SHIFT
  else U256SIZE - 1

/-- Model of `u128::try_from(x).map_err(|_| e)` for a wide nonnegative `x`. -/
def u128TryFrom (x : Nat) (e : Err) : Res Nat :=
  if x < U128SIZE then .ok x else .error e

/-- Model of `u64::try_from(x).map_err(|_| e)` for a wide nonnegative `x`. -/
def u64TryFrom (x : Nat) (e : Err) : Res Nat :=
  if x < U64SIZE then .ok x else .error e

/-- Model of `i64::try_from(x).map_err(|_| AmountInOverflow)` for an
unsigned 128-bit `x` (fails exactly when `x` exceeds `i64::MAX`). -/
def i64TryFrom (x : Nat) : Res Int :=
  if x < 2 ^ 63 then .ok (x : Int) else .error .AmountInOverflow

/-- Model of the unchecked (release-profile wrapping) `u128` subtraction
`a - b` for `a b < U128SIZE`. -/
def wrapSubU128 (a b : Nat) : Nat := (a + U128SIZE - b) % U128SIZE

/-- The smaller of the two prices after the normalization at the top of
`get_amount_0` / `get_amount_1`. -/
def minPrice (a b : Nat) : Nat := if a < b then a else b

/-- The larger of the two prices after the normalization at the top of
`get_amount_0` / `get_amount_1`. -/
def maxPrice (a b : Nat) : Nat := if a < b then b else a

/-- Embedding of `mul_div` (math.rs): checks the denominator, forms the
product with `U512::wrapping_mul` (modelled by `% U512SIZE`), divides,
and downcasts to `u128` with `AmountOverflow` on failure. -/
def mul_div (x y denominator : Nat) : Res Nat :=
  if denominator = 0 then .error .DivisionByZero
  else u128TryFrom ((x * y) % U512SIZE / denominator) .AmountOverflow

/-- Embedding of `mul_div_round_up` (math.rs): `mul_div`, then a
checked `+ 1` whenever `x % denominator ≠ 0`. -/
def mul_div_round_up (x y denominator : Nat) : Res Nat :=
  rbind (mul_div x y denominator) fun result =>
    if x % denominator = 0 then .ok result
    else if result + 1 < U128SIZE then .ok (result + 1)
    else .error .AmountOverflow

/-- Embedding of `get_amount_0` (swap_math.rs): normalizes the price
pair so the smaller comes first, takes the checked price difference,
and computes `liquidity·2^96 · diff / (pa · pb)` rounded up (`adding`)
or down.  The `U256` product `pa * pb` wraps (modelled by `% U256SIZE`;
both factors are `u128` values, so it never actually wraps). -/
def get_amount_0 (sqrt_price_a sqrt_price_b liquidity : Nat)
    (adding : Bool) : Res Nat :=
  rbind (checkedSub (maxPrice sqrt_price_a sqrt_price_b)
      (minPrice sqrt_price_a sqrt_price_b) .AmountUnderflow)
    fun sqrt_price_diff =>
      if adding then
        mul_div_round_up (satShl96 liquidity) sqrt_price_diff
          ((minPrice sqrt_price_a sqrt_price_b *
            maxPrice sqrt_price_a sqrt_price_b) % U256SIZE)
      else
        mul_div (satShl96 liquidity) sqrt_price_diff
          ((minPrice sqrt_price_a sqrt_price_b *
            maxPrice sqrt_price_a sqrt_price_b) % U256SIZE)

/-- Embedding of `get_amount_1` (swap_math.rs): normalizes the price
pair, takes the checked difference, and computes
`liquidity · diff / 2^96` with `div_ceil` (`adding`; the divisor `2^96`
is a nonzero constant so it cannot panic) or `wrapping_shr 96` (a plain
shift for a shift amount below 256), downcast to `u128` with
`AmountOverflow`. -/
def get_amount_1 (sqrt_price_a sqrt_price_b liquidity : Nat)
    (adding : Bool) : Res Nat :=
  rbind (checkedSub (maxPrice sqrt_price_a sqrt_price_b)
      (minPrice sqrt_price_a sqrt_price_b) .AmountUnderflow)
    fun sqrt_price_diff =>
      if adding then
        u128TryFrom
          (ceilDivNat ((liquidity * sqrt_price_diff) % U256SIZE)
            (2 ^ SQRT_PRICE_SHIFT)) .AmountOverflow
      else
        u128TryFrom
          (((liquidity * sqrt_price_diff) % U256SIZE) / 2 ^ SQRT_PRICE_SHIFT)
          .AmountOverflow

/-- Embedding of `get_next_sqrt_ratio_from_amount_0` (swap_math.rs):
zero amount is a shortcut; otherwise the scaled liquidity `L·2^96` is
the numerator base and `L·2^96 ± amount·price` the checked denominator,
and the next price is `mul_div_round_up(L·2^96, price, denominator)`. -/
def get_next_sqrt_ratio_from_amount_0 (sqrt_price liquidity : Nat)
    (amount_0 : Int) : Res Nat :=
  if amount_0 = 0 then .ok sqrt_price
  else
    rbind
      (if 0 < amount_0 then
        checkedAddU256 (satShl96 liquidity)
          ((amount_0.toNat * sqrt_price) % U256SIZE) .AmountOverflow
      else
        checkedSub (satShl96 liquidity)
          ((amount_0.natAbs * sqrt_price) % U256SIZE) .AmountUnderflow)
      fun denominator =>
        mul_div_round_up (satShl96 liquidity) sqrt_price denominator

/-- Embedding of `get_next_sqrt_ratio_from_amount_1` (swap_math.rs):
numerator `price·L ± amount·2^96` (checked), then floor division by the
liquidity via `checked_div` mapping a zero divisor to `DivisionByZero`,
and a `u128` downcast mapping failure to `PriceOverflow`. -/
def get_next_sqrt_ratio_from_amount_1 (sqrt_price liquidity : Nat)
    (amount_1 : Int) : Res Nat :=
  rbind
    (if 0 < amount_1 then
      checkedAddU256 ((sqrt_price * liquidity) % U256SIZE)
        (satShl96 amount_1.toNat) .AmountOverflow
    else
      checkedSub ((sqrt_price * liquidity) % U256SIZE)
        (satShl96 amount_1.natAbs) .AmountUnderflow)
    fun numerator =>
  rbind (checkedDiv numerator liquidity) fun sqrt_price_next =>
    u128TryFrom sqrt_price_next .PriceOverflow

/-- Quote result: (new sqrt price, amount in, amount out, fee amount). -/
abbrev Quad := Nat × Nat × Nat × Nat

/-- The input-side conversion selected by direction: `get_amount_0`
when zero-for-one, else `get_amount_1`. -/
def getAmountInFn (zero_for_one : Bool) :
    Nat → Nat → Nat → Bool → Res Nat :=
  if zero_for_one then get_amount_0 else get_amount_1

/-- The output-side conversion selected by direction: `get_amount_1`
when zero-for-one, else `get_amount_0`. -/
def getAmountOutFn (zero_for_one : Bool) :
    Nat → Nat → Nat → Bool → Res Nat :=
  if zero_for_one then get_amount_1 else get_amount_0

/-- The `or_else` wrapper around the cap probe in `get_delta_amounts`:
an `AmountOverflow` from the probe is reinterpreted as an unreachable
cap (`u128::MAX`); every other outcome passes through unchanged. -/
def catchAmountOverflow (r : Res Nat) : Res Nat :=
  match r with
  | .error .AmountOverflow => .ok U128MAX
  | r => r

/-- Common tail of the exact-in branch of `get_delta_amounts`: derive
`amount_out` from the output-side conversion with `adding = false` and
downcast it to `u64`. -/
def swapTail (sqrt_price new_sqrt_price liquidity : Nat) (zfo : Bool)
    (amount_in fee_amount : Nat) : Res Quad :=
  rbind (getAmountOutFn zfo sqrt_price new_sqrt_price liquidity false)
    fun aout128 =>
  rbind (u64TryFrom aout128 .AmountOutOverflow) fun amount_out =>
    .ok (new_sqrt_price, amount_in, amount_out, fee_amount)

/-- Exact-in branch of `get_delta_amounts` when the boundary price is
not reached: solve the new price from `amount_in_available` (after the
checked `i64` downcast), recompute `amount_in` from the price movement,
and set the fee to the residual `delta - amount_in` (checked,
`AmountUnderflow`). -/
def exactInNotReached (sqrt_price liquidity delta : Nat) (zfo : Bool)
    (amount_in_available : Nat) : Res Quad :=
  rbind (i64TryFrom amount_in_available) fun a =>
  rbind
    (if zfo then get_next_sqrt_ratio_from_amount_0 sqrt_price liquidity a
     else get_next_sqrt_ratio_from_amount_1 sqrt_price liquidity a)
    fun new_sqrt_price =>
  rbind (getAmountInFn zfo sqrt_price new_sqrt_price liquidity true)
    fun ain128 =>
  rbind (u64TryFrom ain128 .AmountInOverflow) fun amount_in =>
  rbind (checkedSub delta amount_in .AmountUnderflow) fun fee_amount =>
    swapTail sqrt_price new_sqrt_price liquidity zfo amount_in fee_amount

/-- Exact-in branch of `get_delta_amounts` when the boundary price is
reached: the new price is the target, `amount_in` is the cap (`as u64`
cast, modelled by `% U64SIZE`; safe per the source comment) and the fee
is `(cap · fee).div_ceil(fee_inverse)` with a checked multiply and a
`u64` downcast. -/
def exactInReached (sqrt_price target_sqrt_price liquidity fee : Nat)
    (zfo : Bool) (fee_inverse max_amount_in : Nat) : Res Quad :=
  rbind (checkedMulU128 max_amount_in fee .AmountOverflow) fun prodf =>
  rbind (divCeilPanic prodf fee_inverse) fun fq =>
  rbind (u64TryFrom fq .FeeAmountOverflow) fun fee_amount =>
    swapTail sqrt_price target_sqrt_price liquidity zfo
      (max_amount_in % U64SIZE) fee_amount

/-- Exact-in branch dispatch on `max_amount_in > amount_in_available`. -/
def exactInCore (sqrt_price target_sqrt_price liquidity delta fee : Nat)
    (zfo : Bool) (fee_inverse amount_in_available max_amount_in : Nat) :
    Res Quad :=
  if amount_in_available < max_amount_in then
    exactInNotReached sqrt_price liquidity delta zfo amount_in_available
  else
    exactInReached sqrt_price target_sqrt_price liquidity fee zfo
      fee_inverse max_amount_in

/-- The whole exact-in mode of `get_delta_amounts`: `fee_inverse`
(checked subtraction, `AmountUnderflow`),
`amount_in_available = fee_inverse · delta / 1_000_000` (checked
multiply then checked division), the cap probe wrapped in
`catchAmountOverflow`, then the branch dispatch. -/
def exactInStep (sqrt_price target_sqrt_price liquidity delta fee : Nat)
    (zfo : Bool) : Res Quad :=
  rbind (checkedSub MAX_FEE_U128 fee .AmountUnderflow) fun fee_inverse =>
  rbind (checkedMulU128 fee_inverse delta .AmountOverflow) fun prod =>
  rbind (checkedDiv prod MAX_FEE_U128) fun amount_in_available =>
  rbind
    (catchAmountOverflow
      (getAmountInFn zfo sqrt_price target_sqrt_price liquidity true))
    fun max_amount_in =>
      exactInCore sqrt_price target_sqrt_price liquidity delta fee zfo
        fee_inverse amount_in_available max_amount_in

/-- The exact-in computation with the cap treated as unreachable: the
pre-steps followed directly by the boundary-not-reached branch. -/
def exactInUncapped (sqrt_price liquidity delta fee : Nat) (zfo : Bool) :
    Res Quad :=
  rbind (checkedSub MAX_FEE_U128 fee .AmountUnderflow) fun fee_inverse =>
  rbind (checkedMulU128 fee_inverse delta .AmountOverflow) fun prod =>
  rbind (checkedDiv prod MAX_FEE_U128) fun amount_in_available =>
    exactInNotReached sqrt_price liquidity delta zfo amount_in_available

/-- Common tail of the exact-out branch of `get_delta_amounts`: derive
`amount_in` from the input-side conversion with `adding = true`, then
the fee `ceil(amount_in · fee / (1_000_000 - fee))` where the `u128`
multiplication and subtraction are unchecked (wrapping) and `div_ceil`
panics on a zero divisor. -/
def exactOutTail (sqrt_price new_sqrt_price liquidity fee : Nat)
    (zfo : Bool) (amount_out : Nat) : Res Quad :=
  rbind (getAmountInFn zfo sqrt_price new_sqrt_price liquidity true)
    fun ain128 =>
  rbind (u64TryFrom ain128 .AmountInOverflow) fun amount_in =>
  rbind
    (divCeilPanic ((amount_in * fee) % U128SIZE)
      (wrapSubU128 MAX_FEE_U128 fee)) fun fq =>
  rbind (u64TryFrom fq .FeeAmountOverflow) fun fee_amount =>
    .ok (new_sqrt_price, amount_in, amount_out, fee_amount)

/-- Exact-out branch of `get_delta_amounts` when the boundary price is
not reached: solve the new price from the signed requested amount
itself; `amount_out` is its magnitude. -/
def exactOutNotReached (sqrt_price liquidity : Nat) (delta : Int)
    (fee : Nat) (zfo : Bool) : Res Quad :=
  rbind
    (if zfo then
      get_next_sqrt_ratio_from_amount_1 sqrt_price liquidity delta
    else get_next_sqrt_ratio_from_amount_0 sqrt_price liquidity delta)
    fun new_sqrt_price =>
      exactOutTail sqrt_price new_sqrt_price liquidity fee zfo delta.natAbs

/-- Exact-out branch dispatch on `max_amount_out > amount_out_to_fill`;
in the boundary-reached case the new price is the target and
`amount_out` is the cap (`as u64` cast, modelled by `% U64SIZE`). -/
def exactOutCore (sqrt_price target_sqrt_price liquidity : Nat)
    (delta : Int) (fee : Nat) (zfo : Bool) (max_amount_out : Nat) :
    Res Quad :=
  if delta.natAbs < max_amount_out then
    exactOutNotReached sqrt_price liquidity delta fee zfo
  else
    exactOutTail sqrt_price target_sqrt_price liquidity fee zfo
      (max_amount_out % U64SIZE)

/-- The whole exact-out mode of `get_delta_amounts`: cap probe wrapped
in `catchAmountOverflow`, then the branch dispatch. -/
def exactOutStep (sqrt_price target_sqrt_price liquidity : Nat)
    (delta : Int) (fee : Nat) (zfo : Bool) : Res Quad :=
  rbind
    (catchAmountOverflow
      (getAmountOutFn zfo sqrt_price target_sqrt_price liquidity false))
    fun max_amount_out =>
      exactOutCore sqrt_price target_sqrt_price liquidity delta fee zfo
        max_amount_out

/-- The exact-out computation with the cap treated as unreachable: the
boundary-not-reached branch directly. -/
def exactOutUncapped (sqrt_price liquidity : Nat) (delta : Int)
    (fee : Nat) (zfo : Bool) : Res Quad :=
  exactOutNotReached sqrt_price liquidity delta fee zfo

/-- Embedding of `get_delta_amounts` (swap_math.rs): the direction is
derived (`zero_for_one := target < price`), a positive requested amount
selects the exact-in mode, zero short-circuits to a no-op, and a
negative amount selects the exact-out mode. -/
def get_delta_amounts (sqrt_price target_sqrt_price liquidity : Nat)
    (delta_amount : Int) (fee : Nat) : Res Quad :=
  if 0 < delta_amount then
    exactInStep sqrt_price target_sqrt_price liquidity delta_amount.toNat
      fee (decide (target_sqrt_price < sqrt_price))
  else if delta_amount = 0 then
    .ok (sqrt_price, 0, 0, 0)
  else
    exactOutStep sqrt_price target_sqrt_price liquidity delta_amount fee
      (decide (target_sqrt_price < sqrt_price))

set_option maxRecDepth 100000

/-! Helper lemmas shared by the claim theorems. -/

theorem U128SIZE_pos : 0 < U128SIZE := Nat.pos_pow_of_pos 128 (by decide)

theorem MAX_FEE_ne_zero : MAX_FEE_U128 ≠ 0 := by decide

theorem U256SIZE_pos : 0 < U256SIZE := Nat.pos_pow_of_pos 256 (by decide)

theorem satShl96_lt (x : Nat) : satShl96 x < U256SIZE := by
  unfold satShl96
  split
  · assumption
  · have := U256SIZE_pos
    omega

theorem catch_other {e : Err} (he : e ≠ .AmountOverflow) :
    catchAmountOverflow (.error e) = .error e := by
  cases e <;> first | rfl | exact absurd rfl he

theorem minPrice_comm (a b : Nat) : minPrice a b = minPrice b a := by
  unfold minPrice
  split <;> split <;> omega

theorem maxPrice_comm (a b : Nat) : maxPrice a b = maxPrice b a := by
  unfold maxPrice
  split <;> split <;> omega

theorem minPrice_le_maxPrice (a b : Nat) : minPrice a b ≤ maxPrice a b := by
  unfold minPrice maxPrice
  split <;> omega

theorem checkedSub_eq_ok {a b : Nat} (e : Err) (h : b ≤ a) :
    checkedSub a b e = .ok (a - b) := by
  unfold checkedSub
  rw [if_pos h]

theorem checkedSub_ok {a b c : Nat} {e : Err}
    (h : checkedSub a b e = .ok c) : b ≤ a ∧ c = a - b := by
  unfold checkedSub at h
  split at h
  · injection h with h
    exact ⟨by assumption, h.symm⟩
  · cases h

theorem checkedMulU128_ok {a b c : Nat} {e : Err}
    (h : checkedMulU128 a b e = .ok c) : a * b < U128SIZE ∧ c = a * b := by
  unfold checkedMulU128 at h
  split at h
  · injection h with h
    exact ⟨by assumption, h.symm⟩
  · cases h

theorem checkedDiv_ok {a b c : Nat} (h : checkedDiv a b = .ok c) :
    b ≠ 0 ∧ c = a / b := by
  unfold checkedDiv at h
  split at h
  · cases h
  · injection h with h
    exact ⟨by assumption, h.symm⟩

theorem divCeilPanic_ok {a b c : Nat} (h : divCeilPanic a b = .ok c) :
    b ≠ 0 ∧ c = ceilDivNat a b := by
  unfold divCeilPanic at h
  split at h
  · cases h
  · injection h with h
    exact ⟨by assumption, h.symm⟩

theorem u64TryFrom_ok {a c : Nat} {e : Err} (h : u64TryFrom a e = .ok c) :
    a < U64SIZE ∧ c = a := by
  unfold u64TryFrom at h
  split at h
  · injection h with h
    exact ⟨by assumption, h.symm⟩
  · cases h

theorem u128TryFrom_ne (x : Nat) (e e' : Err) (h : e ≠ e') :
    u128TryFrom x e ≠ .error e' := by
  unfold u128TryFrom
  split
  · simp
  · intro hc
    injection hc with hc
    exact h hc

theorem mul_div_ne_underflow (x y d : Nat) :
    mul_div x y d ≠ .error .AmountUnderflow := by
  unfold mul_div u128TryFrom
  split
  · simp
  · split <;> simp

theorem mul_div_round_up_ne_underflow (x y d : Nat) :
    mul_div_round_up x y d ≠ .error .AmountUnderflow := by
  unfold mul_div_round_up
  cases h : mul_div x y d with
  | error e =>
    rw [rbind_error]
    intro hc
    injection hc with hc
    subst hc
    exact mul_div_ne_underflow x y d h
  | ok result =>
    rw [rbind_ok]
    split
    · simp
    · split <;> simp

theorem mul_div_ok_lt {x y d q : Nat} (h : mul_div x y d = .ok q) :
    q < U128SIZE := by
  unfold mul_div u128TryFrom at h
  split at h
  · cases h
  · split at h
    · injection h with h
      omega
    · cases h

/-- The fee-adjusted available amount never exceeds the offered amount. -/
theorem aia_le_delta (delta fee : Nat) :
    (MAX_FEE_U128 - fee) * delta / MAX_FEE_U128 ≤ delta := by
  have h1 : (MAX_FEE_U128 - fee) * delta ≤ MAX_FEE_U128 * delta :=
    Nat.mul_le_mul_right delta (Nat.sub_le _ _)
  calc (MAX_FEE_U128 - fee) * delta / MAX_FEE_U128
      ≤ MAX_FEE_U128 * delta / MAX_FEE_U128 := Nat.div_le_div_right h1
    _ = delta := Nat.mul_div_cancel_left delta (by decide)

/-! Claim theorems. -/

/-- C5: for all 256-bit operands, `mul_div` fails with `DivisionByZero`
exactly when the denominator is zero; the 512-bit product never wraps;
and otherwise the result is the floor quotient when it fits in 128 bits
and `AmountOverflow` when it does not. -/
theorem c5_mul_div_spec (x y d : Nat) (hx : x < U256SIZE)
    (hy : y < U256SIZE) (hd : d < U256SIZE) :
    (mul_div x y d = .error .DivisionByZero ↔ d = 0) ∧
      (x * y) % U512SIZE = x * y ∧
      (d ≠ 0 → mul_div x y d =
        if x * y / d < U128SIZE then .ok (x * y / d)
        else .error .AmountOverflow) := by
  have hprod : x * y < U512SIZE := by
    have h2 : x * y < U256SIZE * U256SIZE :=
      mul_lt_mul'' hx hy (Nat.zero_le x) (Nat.zero_le y)
    have h3 : U256SIZE * U256SIZE = U512SIZE := by
      unfold U256SIZE U512SIZE
      rw [← pow_add]
    exact h3 ▸ h2
  have hmod : (x * y) % U512SIZE = x * y := Nat.mod_eq_of_lt hprod
  have hform : ∀ hd0 : d ≠ 0, mul_div x y d =
      if x * y / d < U128SIZE then .ok (x * y / d)
      else .error .AmountOverflow := by
    intro hd0
    unfold mul_div u128TryFrom
    rw [if_neg hd0, hmod]
  refine ⟨⟨?_, ?_⟩, hmod, hform⟩
  · intro h
    by_contra hd0
    rw [hform hd0] at h
    split at h
    · cases h
    · injection h with h
      cases h
  · intro h
    unfold mul_div
    rw [if_pos h]

/-- Witness for C5 at the concrete input (2, 3, 4). -/
theorem c5_mul_div_spec_witness :
    (2:Nat) < U256SIZE ∧ (3:Nat) < U256SIZE ∧ (4:Nat) < U256SIZE ∧
      ((mul_div 2 3 4 = .error .DivisionByZero ↔ (4:Nat) = 0) ∧
        (2 * 3) % U512SIZE = 2 * 3 ∧
        ((4:Nat) ≠ 0 → mul_div 2 3 4 =
          if 2 * 3 / 4 < U128SIZE then .ok (2 * 3 / 4)
          else .error .AmountOverflow)) :=
  ⟨by decide, by decide, by decide,
    c5_mul_div_spec 2 3 4 (by decide) (by decide) (by decide)⟩

/-- C6: on inputs where `mul_div` succeeds with a nonzero denominator,
`mul_div_round_up` returns the same value when `x % denominator = 0`,
the value plus one when the remainder is nonzero, and fails with
`AmountOverflow` exactly when the value is `u128::MAX`. -/
theorem c6_mul_div_round_up_spec (x y d q : Nat) (hd : d ≠ 0)
    (hq : mul_div x y d = .ok q) :
    mul_div_round_up x y d =
      if x % d = 0 then .ok q
      else if q = U128MAX then .error .AmountOverflow
      else .ok (q + 1) := by
  have hlt : q < U128SIZE := mul_div_ok_lt hq
  have hpos := U128SIZE_pos
  have hdef : U128MAX = U128SIZE - 1 := rfl
  unfold mul_div_round_up
  rw [hq, rbind_ok]
  by_cases hx0 : x % d = 0
  · rw [if_pos hx0, if_pos hx0]
  · rw [if_neg hx0, if_neg hx0]
    by_cases hm : q = U128MAX
    · rw [if_neg (by omega), if_pos hm]
    · rw [if_pos (by omega), if_neg hm]

/-- Witness for C6 at the concrete input (3, 2, 6), where `mul_div`
gives 1 and the round-up condition fires. -/
theorem c6_mul_div_round_up_spec_witness :
    (6:Nat) ≠ 0 ∧ mul_div 3 2 6 = .ok 1 ∧
      mul_div_round_up 3 2 6 =
        (if (3:Nat) % 6 = 0 then .ok 1
         else if (1:Nat) = U128MAX then .error .AmountOverflow
         else .ok 2) :=
  ⟨by decide, by rfl, c6_mul_div_round_up_spec 3 2 6 1 (by decide) (by rfl)⟩

/-- C7: `mul_div_round_up` is not the exact ceiling of `x·y/d` because
it tests `x % d` rather than `(x·y) % d`: at (3, 2, 6) it returns 2
though the exact ceiling is 1, and consequently `get_amount_0` on an
empty price interval (equal prices 3, liquidity 1, rounding up)
returns 1. -/
theorem c7_round_up_not_exact_ceiling :
    mul_div_round_up 3 2 6 = .ok 2 ∧ ceilDivNat (3 * 2) 6 = 1 ∧
      (2:Nat) ≠ 1 ∧ get_amount_0 3 3 1 true = .ok 1 :=
  ⟨rfl, rfl, by decide, rfl⟩

/-- C8 counterexample: with equal price arguments the functions do not
fail with `AmountUnderflow` as the claim states; they succeed (the
normalization makes the checked subtraction yield zero). -/
theorem c8_equal_prices_underflow_counterexample :
    get_amount_0 1 1 1 true = .ok 0 ∧ get_amount_1 1 1 1 true = .ok 0 ∧
      get_amount_0 1 1 1 true ≠ .error .AmountUnderflow ∧
      get_amount_1 1 1 1 true ≠ .error .AmountUnderflow :=
  ⟨rfl, rfl, by decide, by decide⟩

/-- C8 amended: because each function normalizes the price pair before
subtracting, the checked price-difference subtraction never fails, and
`get_amount_0` / `get_amount_1` never return `AmountUnderflow` for any
arguments — in particular not for equal prices, where the difference is
simply zero. -/
theorem c8_amended_never_amount_underflow (a b L : Nat) (adding : Bool) :
    get_amount_0 a b L adding ≠ .error .AmountUnderflow ∧
      get_amount_1 a b L adding ≠ .error .AmountUnderflow := by
  have hle := minPrice_le_maxPrice a b
  have hne : Err.AmountOverflow ≠ Err.AmountUnderflow :=
    fun hc => Err.noConfusion hc
  constructor
  · unfold get_amount_0
    rw [checkedSub_eq_ok _ hle, rbind_ok]
    cases adding
    · simp only [Bool.false_eq_true, if_false]
      exact mul_div_ne_underflow _ _ _
    · simp only [if_true]
      exact mul_div_round_up_ne_underflow _ _ _
  · unfold get_amount_1
    rw [checkedSub_eq_ok _ hle, rbind_ok]
    cases adding
    · simp only [Bool.false_eq_true, if_false]
      exact u128TryFrom_ne _ _ _ hne
    · simp only [if_true]
      exact u128TryFrom_ne _ _ _ hne

/-- C9: a zero requested amount short-circuits to a no-op result with
the original price and all amounts zero, for every input. -/
theorem c9_zero_delta_noop (p t L fee : Nat) :
    get_delta_amounts p t L 0 fee = .ok (p, 0, 0, 0) := rfl

/-- C10: the order of the two price arguments does not matter for
`get_amount_0` and `get_amount_1`: both normalize the pair internally
before subtracting. -/
theorem c10_price_order_independent (a b L : Nat) (adding : Bool) :
    get_amount_0 a b L adding = get_amount_0 b a L adding ∧
      get_amount_1 a b L adding = get_amount_1 b a L adding := by
  constructor
  · unfold get_amount_0
    rw [minPrice_comm, maxPrice_comm]
  · unfold get_amount_1
    rw [minPrice_comm, maxPrice_comm]

/-- C1: in both modes, when the cap probe fails with `AmountOverflow`,
`get_delta_amounts` does not propagate it: the cap is treated as
unreachable, the boundary-not-reached branch is taken, and the new
price is solved directly from the requested amount; a probe error of
any other kind is returned to the caller unchanged. -/
theorem c1_probe_overflow_reinterpreted (p t L : Nat) (d : Int)
    (fee : Nat) (e : Err) (hfee : fee ≤ MAX_FEE_U128) (hd0 : d ≠ 0)
    (hdu : d < 2 ^ 63) (hdl : -(2 ^ 63) ≤ d)
    (hprobe :
      (if 0 < d then getAmountInFn (decide (t < p)) p t L true
       else getAmountOutFn (decide (t < p)) p t L false) = .error e) :
    get_delta_amounts p t L d fee =
      if e = .AmountOverflow then
        (if 0 < d then exactInUncapped p L d.toNat fee (decide (t < p))
         else exactOutUncapped p L d fee (decide (t < p)))
      else .error e := by
  have e63i : (2:Int) ^ 63 = 9223372036854775808 := by norm_num
  have e63n : (2:Nat) ^ 63 = 9223372036854775808 := by norm_num
  by_cases hdpos : 0 < d
  · rw [if_pos hdpos] at hprobe
    have hdn : d.toNat < 2 ^ 63 := by omega
    have hmul : (MAX_FEE_U128 - fee) * d.toNat < U128SIZE := by
      have h1 : (MAX_FEE_U128 - fee) * d.toNat ≤ MAX_FEE_U128 * 2 ^ 63 :=
        Nat.mul_le_mul (Nat.sub_le _ _) (Nat.le_of_lt hdn)
      have h2 : MAX_FEE_U128 * 2 ^ 63 < U128SIZE := by decide
      exact lt_of_le_of_lt h1 h2
    unfold get_delta_amounts exactInStep exactInUncapped
    rw [if_pos hdpos]
    rw [checkedSub_eq_ok .AmountUnderflow hfee]
    simp only [rbind_ok]
    unfold checkedMulU128
    rw [if_pos hmul]
    simp only [rbind_ok]
    unfold checkedDiv
    rw [if_neg MAX_FEE_ne_zero]
    simp only [rbind_ok]
    rw [hprobe]
    by_cases he : e = Err.AmountOverflow
    · subst he
      rw [if_pos rfl, if_pos hdpos]
      simp only [catchAmountOverflow, rbind_ok]
      unfold exactInCore
      have hlt : (MAX_FEE_U128 - fee) * d.toNat / MAX_FEE_U128 < U128MAX := by
        have h3 := aia_le_delta d.toNat fee
        have h4 : (2:Nat) ^ 63 < U128MAX := by decide
        exact lt_of_le_of_lt (le_trans h3 (Nat.le_of_lt hdn)) h4
      rw [if_pos hlt]
    · rw [if_neg he, catch_other he]
      simp only [rbind_error]
  · have hdneg : d < 0 := by omega
    rw [if_neg hdpos] at hprobe
    unfold get_delta_amounts exactOutStep exactOutUncapped
    rw [if_neg hdpos, if_neg hd0]
    rw [hprobe]
    by_cases he : e = Err.AmountOverflow
    · subst he
      rw [if_pos rfl, if_neg hdpos]
      simp only [catchAmountOverflow, rbind_ok]
      unfold exactOutCore
      have hlt : d.natAbs < U128MAX := by
        have h4 : d.natAbs ≤ 2 ^ 63 := by omega
        have h5 : (2:Nat) ^ 63 < U128MAX := by decide
        exact lt_of_le_of_lt h4 h5
      rw [if_pos hlt]
    · rw [if_neg he, catch_other he]
      simp only [rbind_error]

/-- Witness for C1: at price 2, target 1 and liquidity `2^64` the
exact-in probe overflows, and the call equals the uncapped exact-in
computation. -/
theorem c1_probe_overflow_reinterpreted_witness :
    (if (0:Int) < 100 then
        getAmountInFn (decide ((1:Nat) < 2)) 2 1 (2 ^ 64) true
      else getAmountOutFn (decide ((1:Nat) < 2)) 2 1 (2 ^ 64) false) =
        .error .AmountOverflow ∧
      get_delta_amounts 2 1 (2 ^ 64) 100 0 =
        (if Err.AmountOverflow = .AmountOverflow then
          (if (0:Int) < 100 then
            exactInUncapped 2 (2 ^ 64) (100:Int).toNat 0
              (decide ((1:Nat) < 2))
          else exactOutUncapped 2 (2 ^ 64) 100 0 (decide ((1:Nat) < 2)))
        else .error Err.AmountOverflow) :=
  ⟨by rfl,
    c1_probe_overflow_reinterpreted 2 1 (2 ^ 64) 100 0 .AmountOverflow
      (by decide) (by decide) (by decide) (by decide) (by rfl)⟩

/-- C2: in an exact-in call where the probed cap `maxIn` is at most the
fee-adjusted offer, a successful call returns the boundary price, the
cap as `amountIn` (at most the offered amount), and the fee
`ceil(maxIn · fee / (1_000_000 - fee))`. -/
theorem c2_exact_in_boundary_reached (p t L : Nat) (d : Int)
    (fee maxIn np ain aout fa : Nat) (hd : 0 < d) (hdu : d < 2 ^ 63)
    (hprobe : getAmountInFn (decide (t < p)) p t L true = .ok maxIn)
    (hcond : maxIn ≤ (MAX_FEE_U128 - fee) * d.toNat / MAX_FEE_U128)
    (hok : get_delta_amounts p t L d fee = .ok (np, ain, aout, fa)) :
    np = t ∧ ain = maxIn ∧ maxIn ≤ d.toNat ∧
      fa = ceilDivNat (maxIn * fee) (MAX_FEE_U128 - fee) := by
  unfold get_delta_amounts at hok
  rw [if_pos hd] at hok
  unfold exactInStep at hok
  obtain ⟨fi, h1, hok⟩ := rbind_eq_ok hok
  obtain ⟨hfee, hfi⟩ := checkedSub_ok h1
  obtain ⟨prod, h2, hok⟩ := rbind_eq_ok hok
  obtain ⟨hm, hprod⟩ := checkedMulU128_ok h2
  obtain ⟨aia, h3, hok⟩ := rbind_eq_ok hok
  obtain ⟨hMne, haia⟩ := checkedDiv_ok h3
  obtain ⟨maxIn2, h4, hok⟩ := rbind_eq_ok hok
  rw [hprobe] at h4
  have hmx : maxIn2 = maxIn := by
    simp only [catchAmountOverflow] at h4
    injection h4 with h4
    exact h4.symm
  rw [hmx] at hok
  have haia2 : aia = (MAX_FEE_U128 - fee) * d.toNat / MAX_FEE_U128 := by
    rw [haia, hprod, hfi]
  have hcond2 : ¬ aia < maxIn := by
    rw [haia2]
    exact Nat.not_lt.mpr hcond
  unfold exactInCore at hok
  rw [if_neg hcond2] at hok
  unfold exactInReached at hok
  obtain ⟨prodf, h5, hok⟩ := rbind_eq_ok hok
  obtain ⟨hple, hprodf⟩ := checkedMulU128_ok h5
  obtain ⟨fq, h6, hok⟩ := rbind_eq_ok hok
  obtain ⟨hfi0, hfq⟩ := divCeilPanic_ok h6
  obtain ⟨fa2, h7, hok⟩ := rbind_eq_ok hok
  obtain ⟨hfa2lt, hfa2⟩ := u64TryFrom_ok h7
  unfold swapTail at hok
  obtain ⟨aout128, h8, hok⟩ := rbind_eq_ok hok
  obtain ⟨aout2, h9, hok⟩ := rbind_eq_ok hok
  injection hok with hok
  simp only [Prod.mk.injEq] at hok
  obtain ⟨hnp, hain, haout, hfa⟩ := hok
  have hled : maxIn ≤ d.toNat := le_trans hcond (aia_le_delta d.toNat fee)
  have e63n : (2:Nat) ^ 63 = 9223372036854775808 := by norm_num
  have e63i : (2:Int) ^ 63 = 9223372036854775808 := by norm_num
  have hdn : d.toNat < 2 ^ 63 := by omega
  have h64 : maxIn % U64SIZE = maxIn := by
    apply Nat.mod_eq_of_lt
    have h5' : (2:Nat) ^ 63 < U64SIZE := by decide
    exact lt_trans (lt_of_le_of_lt hled hdn) h5'
  refine ⟨hnp.symm, ?_, hled, ?_⟩
  · rw [← hain, h64]
  · rw [← hfa, hfa2, hfq, hprodf, hfi]

/-- Witness for C2: at price `2^96`, target `2^97`, liquidity 100, an
exact-in offer of 1000 with zero fee reaches the boundary: the new
price is the target, `amountIn` is the cap 100, and the fee is zero. -/
theorem c2_exact_in_boundary_reached_witness :
    getAmountInFn (decide ((2 ^ 97:Nat) < 2 ^ 96)) (2 ^ 96) (2 ^ 97) 100
        true = .ok 100 ∧
      get_delta_amounts (2 ^ 96) (2 ^ 97) 100 1000 0 =
        .ok (2 ^ 97, 100, 50, 0) ∧
      ((2 ^ 97:Nat) = 2 ^ 97 ∧ (100:Nat) = 100 ∧
        (100:Nat) ≤ (1000:Int).toNat ∧
        (0:Nat) = ceilDivNat (100 * 0) (MAX_FEE_U128 - 0)) :=
  ⟨by rfl, by rfl,
    c2_exact_in_boundary_reached (2 ^ 96) (2 ^ 97) 100 1000 0 100 (2 ^ 97)
      100 50 0 (by decide) (by decide) (by rfl) (by decide) (by rfl)⟩

/-- C3: every successful exact-in call charges a non-negative fee and
settles `amountIn + feeAmount` at or below the offered amount, in both
the boundary-reached and the boundary-not-reached branches. -/
theorem c3_exact_in_fee_bounded (p t L : Nat) (d : Int)
    (fee np ain aout fa : Nat) (hd : 0 < d) (hdu : d < 2 ^ 63)
    (hok : get_delta_amounts p t L d fee = .ok (np, ain, aout, fa)) :
    0 ≤ fa ∧ ain + fa ≤ d.toNat := by
  refine ⟨Nat.zero_le fa, ?_⟩
  unfold get_delta_amounts at hok
  rw [if_pos hd] at hok
  unfold exactInStep at hok
  obtain ⟨fi, h1, hok⟩ := rbind_eq_ok hok
  obtain ⟨hfee, hfi⟩ := checkedSub_ok h1
  obtain ⟨prod, h2, hok⟩ := rbind_eq_ok hok
  obtain ⟨hm, hprod⟩ := checkedMulU128_ok h2
  obtain ⟨aia, h3, hok⟩ := rbind_eq_ok hok
  obtain ⟨hMne, haia⟩ := checkedDiv_ok h3
  obtain ⟨maxIn, h4, hok⟩ := rbind_eq_ok hok
  unfold exactInCore at hok
  by_cases hbranch : aia < maxIn
  · rw [if_pos hbranch] at hok
    unfold exactInNotReached at hok
    obtain ⟨a, g1, hok⟩ := rbind_eq_ok hok
    obtain ⟨nsp, g2, hok⟩ := rbind_eq_ok hok
    obtain ⟨ain128, g3, hok⟩ := rbind_eq_ok hok
    obtain ⟨ain2, g4, hok⟩ := rbind_eq_ok hok
    obtain ⟨fee2, g5, hok⟩ := rbind_eq_ok hok
    obtain ⟨hle, hfee2⟩ := checkedSub_ok g5
    unfold swapTail at hok
    obtain ⟨o1, g6, hok⟩ := rbind_eq_ok hok
    obtain ⟨o2, g7, hok⟩ := rbind_eq_ok hok
    injection hok with hok
    simp only [Prod.mk.injEq] at hok
    obtain ⟨hnp, hain, haout, hfa⟩ := hok
    omega
  · rw [if_neg hbranch] at hok
    unfold exactInReached at hok
    obtain ⟨prodf, g1, hok⟩ := rbind_eq_ok hok
    obtain ⟨hple, hprodf⟩ := checkedMulU128_ok g1
    obtain ⟨fq, g2, hok⟩ := rbind_eq_ok hok
    obtain ⟨hfi0, hfq⟩ := divCeilPanic_ok g2
    obtain ⟨fa2, g3, hok⟩ := rbind_eq_ok hok
    obtain ⟨hfa2lt, hfa2⟩ := u64TryFrom_ok g3
    unfold swapTail at hok
    obtain ⟨o1, g4, hok⟩ := rbind_eq_ok hok
    obtain ⟨o2, g5, hok⟩ := rbind_eq_ok hok
    injection hok with hok
    simp only [Prod.mk.injEq] at hok
    obtain ⟨hnp, hain, haout, hfa⟩ := hok
    have hmaxle : maxIn ≤ aia := Nat.not_lt.mp hbranch
    have hfi_pos : 0 < fi := Nat.pos_of_ne_zero hfi0
    have hMfi : fee + fi = MAX_FEE_U128 := by omega
    have hMpos : 0 < MAX_FEE_U128 := by decide
    have haia2 : aia = fi * d.toNat / MAX_FEE_U128 := by
      rw [haia, hprod]
    have hkey : maxIn * MAX_FEE_U128 ≤ fi * d.toNat :=
      (Nat.le_div_iff_mul_le hMpos).mp (haia2 ▸ hmaxle)
    have hld : maxIn ≤ d.toNat := by
      have hda := aia_le_delta d.toNat fee
      rw [← hfi] at hda
      exact le_trans (haia2 ▸ hmaxle) hda
    obtain ⟨k, hk⟩ : ∃ k, d.toNat = maxIn + k := ⟨d.toNat - maxIn, by omega⟩
    have hfqk : fq ≤ k := by
      rw [hfq, hprodf]
      unfold ceilDivNat
      rw [Nat.div_le_iff_le_mul_add_pred hfi_pos]
      have h6 : maxIn * fee ≤ fi * k := by
        have e1 : maxIn * MAX_FEE_U128 = maxIn * fee + maxIn * fi := by
          rw [← hMfi]
          ring
        have e2 : fi * d.toNat = fi * maxIn + fi * k := by
          rw [hk]
          ring
        have e3 : maxIn * fi = fi * maxIn := Nat.mul_comm _ _
        omega
      omega
    have e63n : (2:Nat) ^ 63 = 9223372036854775808 := by norm_num
    have e63i : (2:Int) ^ 63 = 9223372036854775808 := by norm_num
    have hdn : d.toNat < 2 ^ 63 := by omega
    have h64 : maxIn % U64SIZE = maxIn := by
      apply Nat.mod_eq_of_lt
      have h5' : (2:Nat) ^ 63 < U64SIZE := by decide
      exact lt_trans (lt_of_le_of_lt hld hdn) h5'
    omega

/-- Witness for C3 at the boundary-reached input of C2: the fee is zero
and the settled input plus fee (100) stays within the offer (1000). -/
theorem c3_exact_in_fee_bounded_witness :
    (0:Int) < 1000 ∧ ((0:Nat) ≤ 0 ∧ 100 + 0 ≤ (1000:Int).toNat) :=
  ⟨by decide,
    c3_exact_in_fee_bounded (2 ^ 96) (2 ^ 97) 100 1000 0 (2 ^ 97) 100 50 0
      (by decide) (by decide) (by rfl)⟩

/-- C4 counterexample: at price `2^96`, boundary `2^96 - 2^32`,
liquidity `2^32`, exact-out amount 1 and the full fee rate 1_000_000,
the fee-inverse denominator is zero at its point of use, yet the call
does not return `DivisionByZero`: the unguarded `div_ceil` panics. -/
theorem c4_fee_inverse_zero_counterexample :
    get_delta_amounts (2 ^ 96) (2 ^ 96 - 2 ^ 32) (2 ^ 32) (-1) 1000000 =
        .error .Panic ∧
      get_delta_amounts (2 ^ 96) (2 ^ 96 - 2 ^ 32) (2 ^ 32) (-1) 1000000 ≠
        .error .DivisionByZero := by
  constructor
  · rfl
  · intro h
    rw [show get_delta_amounts (2 ^ 96) (2 ^ 96 - 2 ^ 32) (2 ^ 32) (-1)
        1000000 = Except.error Err.Panic from rfl] at h
    injection h with h
    exact Err.noConfusion h

/-- C4 amended: a zero total liquidity at the division inside
`get_next_sqrt_ratio_from_amount_1` (with a non-negative amount, so the
earlier checked subtraction cannot fail first) makes the call return
`DivisionByZero`; but the zero fee-inverse term in `get_delta_amounts`
is not guarded — when `1_000_000 - fee = 0` reaches the fee division
the code panics instead of returning `DivisionByZero`. -/
theorem c4_division_by_zero_amended :
    (∀ (p : Nat) (a : Int), 0 ≤ a →
      get_next_sqrt_ratio_from_amount_1 p 0 a = .error .DivisionByZero) ∧
      get_delta_amounts (2 ^ 96) (2 ^ 96 - 2 ^ 32) (2 ^ 32) (-1) 1000000 =
        .error .Panic := by
  refine ⟨?_, rfl⟩
  intro p a ha
  unfold get_next_sqrt_ratio_from_amount_1
  rw [Nat.mul_zero, Nat.zero_mod]
  by_cases hpos : 0 < a
  · rw [if_pos hpos]
    unfold checkedAddU256
    rw [if_pos (by rw [Nat.zero_add]; exact satShl96_lt _)]
    rw [rbind_ok]
    unfold checkedDiv
    rw [if_pos rfl, rbind_error]
  · have ha0 : a = 0 := le_antisymm (not_lt.mp hpos) ha
    subst ha0
    rw [if_neg hpos, Int.natAbs_zero]
    have h0 : satShl96 0 = 0 := by
      unfold satShl96
      rw [Nat.zero_mul]
      rw [if_pos U256SIZE_pos]
    rw [h0, checkedSub_eq_ok _ (Nat.le_refl 0), rbind_ok]
    unfold checkedDiv
    rw [if_pos rfl, rbind_error]

/-- Witness for C4's amended statement: liquidity zero with the
non-negative amount 3 at price 5 yields `DivisionByZero`. -/
theorem c4_division_by_zero_amended_witness :
    (0:Int) ≤ 3 ∧
      get_next_sqrt_ratio_from_amount_1 5 0 3 = .error .DivisionByZero :=
  ⟨by decide, c4_division_by_zero_amended.1 5 3 (by decide)⟩

end TokenMill
